import Mathlib

set_option maxHeartbeats 1000000

/-!
Shallow embedding of drivers/usb/dwc3/dbm-1_5.c (MSM USB DBM 1.5 driver).

The device context (struct dbm_data) is the 32-bit register window together
with the 8-entry u8 endpoint mapping table and the endpoint count.  Each entry
point is modelled as a pure function returning its C result value together
with the ordered trace of observable side effects (plain register writes,
masked register field writes, mapping-table stores); applying the trace to a
state gives the post-state.  Machine arithmetic is Nat with explicit
truncation modulo 2^32 (registers) and 2^8 (mapping entries).
-/

/-- Linux errno ENODEV (19); the driver returns -ENODEV on lookup and
direction failures. -/
def ENODEV : Int := 19

/-- Linux errno EINVAL (22); returned by event_buffer_config on negative
size. -/
def EINVAL : Int := 22

/-- All bits of a 32-bit word. -/
def MASK32 : Nat := 2 ^ 32 - 1

/-- Register offset DBM_EP_CFG(n) = 0x00 + 4*n. -/
def DBM_EP_CFG (n : Nat) : Nat := 0x00 + 4 * n

/-- Register offset DBM_DATA_FIFO_SIZE(n) = 0x80 + 4*n. -/
def DBM_DATA_FIFO_SIZE (n : Nat) : Nat := 0x80 + 4 * n

/-- Register offset DBM_DBG_CNFG. -/
def DBM_DBG_CNFG : Nat := 0x208

/-- Register offset DBM_SOFT_RESET. -/
def DBM_SOFT_RESET : Nat := 0x20C

/-- Register offset DBM_GEN_CFG. -/
def DBM_GEN_CFG : Nat := 0x210

/-- Register offset DBM_GEVNTADR_LSB. -/
def DBM_GEVNTADR_LSB : Nat := 0x260

/-- Register offset DBM_GEVNTADR_MSB. -/
def DBM_GEVNTADR_MSB : Nat := 0x264

/-- Register offset DBM_GEVNTSIZ. -/
def DBM_GEVNTSIZ : Nat := 0x268

/-- Register offset DBM_DATA_FIFO_LSB(n) = 0x100 + 8*n. -/
def DBM_DATA_FIFO_LSB (n : Nat) : Nat := 0x100 + 8 * n

/-- Register offset DBM_DATA_FIFO_MSB(n) = 0x104 + 8*n. -/
def DBM_DATA_FIFO_MSB (n : Nat) : Nat := 0x104 + 8 * n

/-- Register offset DBM_DATA_FIFO_ADDR_EN. -/
def DBM_DATA_FIFO_ADDR_EN : Nat := 0x200

/-- Register offset DBM_DATA_FIFO_SIZE_EN. -/
def DBM_DATA_FIFO_SIZE_EN : Nat := 0x204

/-- Number of DBM endpoints of hardware revision 1.5 (DBM_1_5_NUM_EP). -/
def DBM_1_5_NUM_EP : Nat := 8

/-- Modelled from the spec: the field masks come from dbm.h, which is not
under src/.  The slot enable bit of a DBM_EP_CFG register; ep_unconfig
clears it with data &= ~0x1, fixing it as bit 0. -/
def DBM_EN_EP : Nat := 0x1

/-- Modelled from the spec: dbm.h mask of the endpoint-number field of a
DBM_EP_CFG register (USB3_EPNUM). -/
def USB3_EPNUM : Nat := 0x3E

/-- Modelled from the spec: dbm.h producer flag bit of a DBM_EP_CFG register.
ep_config writes the three flag bits as one byte shifted down by 8, so they
sit in bits 8-10. -/
def DBM_PRODUCER : Nat := 0x100

/-- Modelled from the spec: dbm.h disable-writeback flag bit of a DBM_EP_CFG
register. -/
def DBM_DISABLE_WB : Nat := 0x200

/-- Modelled from the spec: dbm.h internal-RAM-access flag bit of a
DBM_EP_CFG register. -/
def DBM_INT_RAM_ACC : Nat := 0x400

/-- Modelled from the spec: dbm.h global soft-reset mask in DBM_SOFT_RESET. -/
def DBM_SFT_RST_MASK : Nat := 0x80000000

/-- Modelled from the spec: dbm.h per-endpoint soft-reset mask (one bit per
slot) in DBM_SOFT_RESET. -/
def DBM_SFT_RST_EPS_MASK : Nat := 0xFF

/-- Modelled from the spec: dbm.h interrupt-on-completion mask in
DBM_DBG_CNFG. -/
def DBM_ENABLE_IOC_MASK : Nat := 0xFFFF

/-- Modelled from the spec: dbm.h event-buffer size field mask in
DBM_GEVNTSIZ. -/
def DBM_GEVNTSIZ_MASK : Nat := 0xFFFF

/-- Modelled from the spec: dbm.h data-FIFO size field mask in
DBM_DATA_FIFO_SIZE(n). -/
def DBM_DATA_FIFO_SIZE_MASK : Nat := 0xFFFF

/-- One observable side effect of an entry point: a plain 32-bit register
write (msm_dbm_write_reg), a masked register field write
(msm_dbm_write_reg_field), or a store into the ep_num_mapping table. -/
inductive Event where
  | regWrite (offset val : Nat)
  | fieldWrite (offset mask val : Nat)
  | mapStore (idx val : Nat)
deriving DecidableEq

/-- Whether an event is a mapping-table store. -/
def Event.isMapStore : Event → Bool
  | Event.mapStore _ _ => true
  | _ => false

/-- A mapping-table store is within the 8-entry array exactly when its index
is below DBM_1_5_NUM_EP; other events are unconstrained. -/
def mapStoreInBounds : Event → Bool
  | Event.mapStore i _ => decide (i < DBM_1_5_NUM_EP)
  | _ => true

/-- Fuel-bounded scan for the lowest set bit, mirroring
find_first_bit(&mask, 32): the index of the lowest set bit, or 32 when no
bit of the 32-bit mask is set. -/
def ffbAux : Nat → Nat → Nat
  | _, 0 => 0
  | m, fuel + 1 => if m % 2 = 1 then 0 else ffbAux (m / 2) fuel + 1

/-- find_first_bit over a 32-bit mask (line 72 of dbm-1_5.c). -/
def find_first_bit (m : Nat) : Nat := ffbAux m 32

/-- msm_dbm_write_reg_field (lines 69-78): read the register value r, clear
the masked bits, OR in val shifted to the mask's lowest set bit, all in
32-bit arithmetic.  Note the shifted value is NOT re-masked, exactly as in
the C code. -/
def msm_dbm_write_reg_field (r mask val : Nat) : Nat :=
  (r &&& (MASK32 ^^^ mask)) ||| ((val <<< find_first_bit mask) % 2 ^ 32)

/-- struct dbm_data: the register window, dbm_num_eps and the
ep_num_mapping table (a u8 array indexed 0..7, modelled as a total
function; only indices below dbm_num_eps are scanned by the driver). -/
structure DbmState where
  regs : Nat → Nat
  dbm_num_eps : Nat
  ep_num_mapping : Nat → Nat

/-- Apply one side effect to the device state. -/
def applyEvent (s : DbmState) : Event → DbmState
  | Event.regWrite off v =>
      { s with regs := fun o => if o = off then v % 2 ^ 32 else s.regs o }
  | Event.fieldWrite off m v =>
      { s with regs := fun o =>
          if o = off then msm_dbm_write_reg_field (s.regs off) m v else s.regs o }
  | Event.mapStore i v =>
      { s with ep_num_mapping := fun j => if j = i then v % 2 ^ 8 else s.ep_num_mapping j }

/-- Apply an ordered trace of side effects to the device state. -/
def applyEvents (s : DbmState) (es : List Event) : DbmState := es.foldl applyEvent s

/-- Loop body of msm_dbm_find_matching_dbm_ep: scan slots i, i+1, ... while
fuel remains, returning the first slot whose entry equals usb_ep. -/
def findMatchingAux (mp : Nat → Nat) (usb_ep : Nat) : Nat → Nat → Int
  | _, 0 => -ENODEV
  | i, rem + 1 =>
      if mp i = usb_ep then Int.ofNat i else findMatchingAux mp usb_ep (i + 1) rem

/-- msm_dbm_find_matching_dbm_ep (lines 114-123): first slot in
0..dbm_num_eps-1 whose mapping entry equals usb_ep, else -ENODEV. -/
def msm_dbm_find_matching_dbm_ep (s : DbmState) (usb_ep : Nat) : Int :=
  findMatchingAux s.ep_num_mapping usb_ep 0 s.dbm_num_eps

/-- soft_reset (lines 130-138): one masked write of the global reset bit;
returns 0. -/
def soft_reset (reset : Bool) : Int × List Event :=
  (0, [Event.fieldWrite DBM_SOFT_RESET DBM_SFT_RST_MASK (if reset then 1 else 0)])

/-- dbm_ep_soft_reset (lines 150-168): range-check the slot index, then set
or clear that slot's bit of the per-endpoint reset mask. -/
def dbm_ep_soft_reset (s : DbmState) (dbm_ep : Nat) (enter_reset : Bool) :
    Int × List Event :=
  if s.dbm_num_eps ≤ dbm_ep then (-ENODEV, [])
  else if enter_reset then
    (0, [Event.fieldWrite DBM_SOFT_RESET (DBM_SFT_RST_EPS_MASK &&& (1 <<< dbm_ep)) 1])
  else
    (0, [Event.fieldWrite DBM_SOFT_RESET (DBM_SFT_RST_EPS_MASK &&& (1 <<< dbm_ep)) 0])

/-- ep_config (lines 183-228): resolve the slot, reject slot 7 when the
producer flag is set, then deassert the slot reset, write the IOC bit, the
configuration-flags byte, the endpoint number, and the enable bit last;
returns the slot index. -/
def ep_config (s : DbmState) (usb_ep bam_pipe : Nat)
    (producer disable_wb internal_mem ioc : Bool) : Int × List Event :=
  let dbm_ep := msm_dbm_find_matching_dbm_ep s usb_ep
  if dbm_ep < 0 then (-ENODEV, [])
  else if dbm_ep = 7 ∧ producer = true then (-ENODEV, [])
  else
    let ep := dbm_ep.toNat
    let internal_mem := false
    let ep_cfg := (if producer then DBM_PRODUCER else 0) |||
      (if disable_wb then DBM_DISABLE_WB else 0) |||
      (if internal_mem then DBM_INT_RAM_ACC else 0)
    (dbm_ep,
      (dbm_ep_soft_reset s ep false).2 ++
      [Event.fieldWrite DBM_DBG_CNFG (DBM_ENABLE_IOC_MASK &&& (1 <<< ep))
         (if ioc then 1 else 0),
       Event.fieldWrite (DBM_EP_CFG ep)
         (DBM_PRODUCER ||| DBM_DISABLE_WB ||| DBM_INT_RAM_ACC) (ep_cfg >>> 8),
       Event.fieldWrite (DBM_EP_CFG ep) USB3_EPNUM usb_ep,
       Event.fieldWrite (DBM_EP_CFG ep) DBM_EN_EP 1])

/-- ep_unconfig (lines 236-266): resolve the slot, clear its mapping entry,
clear the enable bit by read-modify-write, then reset-assert and
reset-deassert the slot (the 10 usec delay between the two is real time,
not a register effect, and is not part of the trace); returns 0. -/
def ep_unconfig (s : DbmState) (usb_ep : Nat) : Int × List Event :=
  let dbm_ep := msm_dbm_find_matching_dbm_ep s usb_ep
  if dbm_ep < 0 then (-ENODEV, [])
  else
    let ep := dbm_ep.toNat
    let data := s.regs (DBM_EP_CFG ep) &&& (MASK32 ^^^ 0x1)
    (0, [Event.mapStore ep 0, Event.regWrite (DBM_EP_CFG ep) data] ++
      (dbm_ep_soft_reset s ep true).2 ++
      (dbm_ep_soft_reset s ep false).2)

/-- get_num_of_eps_configured (lines 272-282): count of nonzero mapping
entries. -/
def get_num_of_eps_configured (s : DbmState) : Nat :=
  (List.range s.dbm_num_eps).countP (fun i => s.ep_num_mapping i != 0)

/-- event_buffer_config (lines 292-307): reject a negative size with
-EINVAL before any write, else write the address halves and the masked
size field. -/
def event_buffer_config (addr_lo addr_hi : Nat) (size : Int) : Int × List Event :=
  if size < 0 then (-EINVAL, [])
  else
    (0, [Event.regWrite DBM_GEVNTADR_LSB addr_lo,
         Event.regWrite DBM_GEVNTADR_MSB addr_hi,
         Event.fieldWrite DBM_GEVNTSIZ DBM_GEVNTSIZ_MASK size.toNat])

/-- data_fifo_config (lines 310-329): store the endpoint number into the
mapping table at the caller-supplied slot index (no validation), then write
the low/high address halves and the masked size field; returns 0. -/
def data_fifo_config (dep_num : Nat) (addr : Nat) (size : Nat)
    (dst_pipe_idx : Nat) : Int × List Event :=
  let dbm_ep := dst_pipe_idx
  let lo := addr &&& MASK32
  let hi := (addr >>> 32) &&& MASK32
  (0, [Event.mapStore dbm_ep dep_num,
       Event.regWrite (DBM_DATA_FIFO_LSB dbm_ep) lo,
       Event.regWrite (DBM_DATA_FIFO_MSB dbm_ep) hi,
       Event.fieldWrite (DBM_DATA_FIFO_SIZE dbm_ep) DBM_DATA_FIFO_SIZE_MASK size])

/-- set_speed (lines 331-334): one plain write of the speed bit. -/
def set_speed (speed : Bool) : List Event :=
  [Event.regWrite DBM_GEN_CFG (if speed then 1 else 0)]

/-- enable (lines 336-340): write the two fixed all-slots enable masks. -/
def enable : List Event :=
  [Event.regWrite DBM_DATA_FIFO_ADDR_EN 0x000000FF,
   Event.regWrite DBM_DATA_FIFO_SIZE_EN 0x000000FF]

/-- Device state right after msm_dbm_probe: dbm_data is devm_kzalloc'ed
(mapping table and registers all zero) and dbm_num_eps = DBM_1_5_NUM_EP. -/
def initDbmState : DbmState :=
  { regs := fun _ => 0, dbm_num_eps := DBM_1_5_NUM_EP, ep_num_mapping := fun _ => 0 }

/-- The mapping-table invariant: a nonzero logical endpoint number appears
in at most one scanned slot. -/
def uniqueMapping (s : DbmState) : Prop :=
  ∀ i, i < s.dbm_num_eps → ∀ j, j < s.dbm_num_eps →
    s.ep_num_mapping i ≠ 0 → s.ep_num_mapping i = s.ep_num_mapping j → i = j

/-- A configured example state: slot 2 bound to logical endpoint 3 by
data_fifo_config, as in the spec's concrete scenario. -/
def exStateA : DbmState := applyEvents initDbmState (data_fifo_config 3 4096 4096 2).2

/-- An example state with slot 7 bound to logical endpoint 5. -/
def exState7 : DbmState := applyEvents initDbmState (data_fifo_config 5 4096 4096 7).2

/-- An example state with slot 0 bound to logical endpoint 3 (so slot 1 is
the first unassigned slot). -/
def exStateB : DbmState := applyEvents initDbmState (data_fifo_config 3 4096 4096 0).2

/-- The state after binding logical endpoint 3 to slot 2 and then also to
slot 5 by a second data_fifo_config call. -/
def exStateDup : DbmState := applyEvents exStateA (data_fifo_config 3 8192 4096 5).2

/-- The state after unconfiguring logical endpoint 3 from exStateA. -/
def exAfterUnconfig : DbmState := applyEvents exStateA (ep_unconfig exStateA 3).2

/-- If the lookup loop returns a slot index, that index is in the scanned
range and its entry matches. -/
theorem findMatchingAux_eq_ofNat {mp : Nat → Nat} {u : Nat} :
    ∀ rem i j, findMatchingAux mp u i rem = Int.ofNat j →
      i ≤ j ∧ j < i + rem ∧ mp j = u := by
  intro rem
  induction rem with
  | zero =>
      intro i j h
      simp only [findMatchingAux, ENODEV, Int.ofNat_eq_natCast] at h
      omega
  | succ n ih =>
      intro i j h
      simp only [findMatchingAux] at h
      by_cases hm : mp i = u
      · rw [if_pos hm] at h
        have hij : i = j := Int.ofNat.inj h
        subst hij
        exact ⟨Nat.le_refl i, by omega, hm⟩
      · rw [if_neg hm] at h
        obtain ⟨h1, h2, h3⟩ := ih (i + 1) j h
        exact ⟨by omega, by omega, h3⟩

/-- The lookup loop returns the first matching slot index. -/
theorem findMatchingAux_first {mp : Nat → Nat} {u : Nat} :
    ∀ rem i j, i ≤ j → j < i + rem → mp j = u →
      (∀ l, i ≤ l → l < j → mp l ≠ u) →
      findMatchingAux mp u i rem = Int.ofNat j := by
  intro rem
  induction rem with
  | zero =>
      intro i j h1 h2 _ _
      exact absurd h1 (by omega)
  | succ n ih =>
      intro i j h1 h2 h3 h4
      simp only [findMatchingAux]
      by_cases hij : i = j
      · subst hij
        rw [if_pos h3]
      · have hmi : mp i ≠ u := h4 i (Nat.le_refl i) (by omega)
        rw [if_neg hmi]
        exact ih (i + 1) j (by omega) (by omega) h3
          (fun l hl1 hl2 => h4 l (by omega) hl2)

/-- When no scanned slot matches, the lookup loop returns -ENODEV. -/
theorem findMatchingAux_none {mp : Nat → Nat} {u : Nat} :
    ∀ rem i, (∀ l, i ≤ l → l < i + rem → mp l ≠ u) →
      findMatchingAux mp u i rem = -ENODEV := by
  intro rem
  induction rem with
  | zero => intro i _; rfl
  | succ n ih =>
      intro i h
      have hmi : mp i ≠ u := h i (Nat.le_refl i) (by omega)
      simp only [findMatchingAux]
      rw [if_neg hmi]
      exact ih (i + 1) (fun l hl1 hl2 => h l (by omega) (by omega))

/-- A successful slot lookup lands below dbm_num_eps and hits a matching
entry. -/
theorem find_matching_bounds {s : DbmState} {u j : Nat}
    (h : msm_dbm_find_matching_dbm_ep s u = Int.ofNat j) :
    j < s.dbm_num_eps ∧ s.ep_num_mapping j = u := by
  obtain ⟨_, h2, h3⟩ := findMatchingAux_eq_ofNat s.dbm_num_eps 0 j h
  exact ⟨by omega, h3⟩

/-- Constructor form of Int.toNat on Int.ofNat. -/
theorem int_ofNat_toNat (n : Nat) : (Int.ofNat n).toNat = n := rfl

/-- Events never change dbm_num_eps. -/
theorem applyEvent_num_eps (s : DbmState) (e : Event) :
    (applyEvent s e).dbm_num_eps = s.dbm_num_eps := by
  cases e <;> rfl

/-- Traces never change dbm_num_eps. -/
theorem applyEvents_num_eps (es : List Event) :
    ∀ s, (applyEvents s es).dbm_num_eps = s.dbm_num_eps := by
  induction es with
  | nil => intro s; rfl
  | cons e t ih =>
      intro s
      have h1 : applyEvents s (e :: t) = applyEvents (applyEvent s e) t := rfl
      rw [h1, ih, applyEvent_num_eps]

/-- Register-only events do not change the mapping table. -/
theorem applyEvent_mapping_of_not_store (s : DbmState) (e : Event)
    (h : e.isMapStore = false) :
    (applyEvent s e).ep_num_mapping = s.ep_num_mapping := by
  cases e with
  | regWrite off v => rfl
  | fieldWrite off m v => rfl
  | mapStore i v => simp [Event.isMapStore] at h

/-- A trace without mapping stores does not change the mapping table. -/
theorem applyEvents_mapping_of_no_store (es : List Event) :
    ∀ s, (∀ e ∈ es, e.isMapStore = false) →
      (applyEvents s es).ep_num_mapping = s.ep_num_mapping := by
  induction es with
  | nil => intro s _; rfl
  | cons e t ih =>
      intro s h
      have h1 : applyEvents s (e :: t) = applyEvents (applyEvent s e) t := rfl
      rw [h1, ih (applyEvent s e) (fun x hx => h x (List.mem_cons_of_mem e hx)),
        applyEvent_mapping_of_not_store s e (h e (List.mem_cons_self e t))]

/-- dbm_ep_soft_reset issues no mapping-table store. -/
theorem dbm_ep_soft_reset_no_mapStore (s : DbmState) (d : Nat) (b : Bool) :
    ∀ e ∈ (dbm_ep_soft_reset s d b).2, e.isMapStore = false := by
  intro e he
  unfold dbm_ep_soft_reset at he
  split at he
  · simp at he
  · split at he <;> simp at he <;> subst he <;> rfl

/-- ep_config issues no mapping-table store. -/
theorem ep_config_no_mapStore (s : DbmState) (u bp : Nat) (p dwb im ioc : Bool) :
    ∀ e ∈ (ep_config s u bp p dwb im ioc).2, e.isMapStore = false := by
  intro e he
  unfold ep_config at he
  by_cases h1 : msm_dbm_find_matching_dbm_ep s u < 0
  · rw [if_pos h1] at he
    simp at he
  · rw [if_neg h1] at he
    by_cases h2 : msm_dbm_find_matching_dbm_ep s u = 7 ∧ p = true
    · rw [if_pos h2] at he
      simp at he
    · rw [if_neg h2] at he
      simp only [List.mem_append, List.mem_cons, List.not_mem_nil, or_false] at he
      rcases he with he | he | he | he | he
      · exact dbm_ep_soft_reset_no_mapStore s _ false e he
      all_goals (subst he; rfl)

/-- An odd number times 2^s has its lowest set bit at position s (given
enough fuel). -/
theorem ffbAux_mul_pow (x : Nat) (hx : x % 2 = 1) :
    ∀ s fuel, s < fuel → ffbAux (x * 2 ^ s) fuel = s := by
  intro s
  induction s with
  | zero =>
      intro fuel hf
      cases fuel with
      | zero => omega
      | succ f =>
          simp only [pow_zero, Nat.mul_one, ffbAux]
          rw [if_pos hx]
  | succ k ih =>
      intro fuel hf
      cases fuel with
      | zero => omega
      | succ f =>
          have heq : x * 2 ^ (k + 1) = x * 2 ^ k * 2 := by ring
          have heven : ¬ x * 2 ^ (k + 1) % 2 = 1 := by
            rw [heq]
            simp [Nat.mul_mod_left]
          have hdiv : x * 2 ^ (k + 1) / 2 = x * 2 ^ k := by
            rw [heq]
            exact Nat.mul_div_cancel _ (by norm_num)
          simp only [ffbAux]
          rw [if_neg heven, hdiv, ih f (by omega)]

/-- find_first_bit of a contiguous w-bit mask based at bit s is s. -/
theorem find_first_bit_contiguous (s w : Nat) (hw : 0 < w) (hs : s < 32) :
    find_first_bit ((2 ^ w - 1) <<< s) = s := by
  have hodd : (2 ^ w - 1) % 2 = 1 := by
    have h1 : 0 < 2 ^ w := Nat.two_pow_pos w
    have h2 : 2 ^ w % 2 = 0 := by
      cases w with
      | zero => omega
      | succ k => simp [pow_succ, Nat.mul_mod_left]
    omega
  rw [find_first_bit, Nat.shiftLeft_eq]
  exact ffbAux_mul_pow _ hodd s 32 hs

/-- A value fitting in w bits shifted up by s fits in 32 bits when
s + w ≤ 32. -/
theorem shiftLeft_lt_two_pow_32 {v s w : Nat} (hv : v < 2 ^ w) (hsw : s + w ≤ 32) :
    v <<< s < 2 ^ 32 := by
  rw [Nat.shiftLeft_eq]
  have h1 : v * 2 ^ s < 2 ^ w * 2 ^ s :=
    mul_lt_mul_of_pos_right hv (Nat.two_pow_pos s)
  have h2 : 2 ^ w * 2 ^ s = 2 ^ (w + s) := (pow_add 2 w s).symm
  have h3 : (2 : Nat) ^ (w + s) ≤ 2 ^ 32 :=
    Nat.pow_le_pow_right (by norm_num) (by omega)
  omega

/-- Bit i of the contiguous w-bit mask based at s. -/
theorem testBit_contiguous_mask {s w i : Nat} :
    ((2 ^ w - 1) <<< s).testBit i = (decide (s ≤ i) && decide (i < s + w)) := by
  rw [Nat.testBit_shiftLeft, Nat.testBit_two_pow_sub_one]
  by_cases h1 : s ≤ i
  · have e1 : decide (i ≥ s) = true := decide_eq_true h1
    rw [e1, Bool.true_and, Bool.true_and, decide_eq_decide]
    omega
  · have e1 : decide (i ≥ s) = false := decide_eq_false h1
    rw [e1, Bool.false_and, Bool.false_and]

/-- Bit i of MASK32. -/
theorem testBit_MASK32 {i : Nat} : MASK32.testBit i = decide (i < 32) := by
  rw [MASK32, Nat.testBit_two_pow_sub_one]

/-- A w-bit value shifted up by s has no bit outside [s, s+w). -/
theorem testBit_shiftLeft_out {v s w i : Nat} (hv : v < 2 ^ w)
    (h : ¬(s ≤ i ∧ i < s + w)) : (v <<< s).testBit i = false := by
  rw [Nat.testBit_shiftLeft]
  by_cases hsi : s ≤ i
  · have hw' : w ≤ i - s := by omega
    have hlt : v < 2 ^ (i - s) :=
      lt_of_lt_of_le hv (Nat.pow_le_pow_right (by norm_num) hw')
    simp [Nat.testBit_lt_two_pow hlt]
  · simp [ge_iff_le, hsi]

/-- For a contiguous mask and a fitting value, msm_dbm_write_reg_field is
clear-then-or with the value shifted to the mask base. -/
theorem msm_dbm_write_reg_field_eq {r v s w : Nat} (hw : 0 < w)
    (hsw : s + w ≤ 32) (hv : v < 2 ^ w) :
    msm_dbm_write_reg_field r ((2 ^ w - 1) <<< s) v =
      (r &&& (MASK32 ^^^ ((2 ^ w - 1) <<< s))) ||| (v <<< s) := by
  unfold msm_dbm_write_reg_field
  rw [find_first_bit_contiguous s w hw (by omega),
    Nat.mod_eq_of_lt (shiftLeft_lt_two_pow_32 hv hsw)]

/-- ORing in a fitting shifted value does not disturb the bits selected by
the mask's 32-bit complement. -/
theorem lor_shift_and_compl {r v s w : Nat} (hsw : s + w ≤ 32) (hv : v < 2 ^ w) :
    ((r &&& (MASK32 ^^^ ((2 ^ w - 1) <<< s))) ||| (v <<< s)) &&&
        (MASK32 ^^^ ((2 ^ w - 1) <<< s)) =
      r &&& (MASK32 ^^^ ((2 ^ w - 1) <<< s)) := by
  apply Nat.eq_of_testBit_eq
  intro i
  simp only [Nat.testBit_and, Nat.testBit_or]
  by_cases hm : ((2 ^ w - 1) <<< s).testBit i = true
  · have hi32 : i < 32 := by
      rw [testBit_contiguous_mask] at hm
      simp at hm
      omega
    have hc : (MASK32 ^^^ ((2 ^ w - 1) <<< s)).testBit i = false := by
      rw [Nat.testBit_xor, testBit_MASK32, hm]
      simp [hi32]
    rw [hc]
    simp
  · have hmf : ((2 ^ w - 1) <<< s).testBit i = false := by simpa using hm
    have hvb : (v <<< s).testBit i = false := by
      apply testBit_shiftLeft_out hv
      rw [testBit_contiguous_mask] at hmf
      intro hand
      simp [hand.1, hand.2] at hmf
    rw [hvb, Bool.or_false, Bool.and_assoc, Bool.and_self]

/-- C5: for every 32-bit register content r, contiguous field mask
(2^w - 1) <<< s (0 < w, s + w ≤ 32) and value v that fits the field
(v < 2^w), msm_dbm_write_reg_field leaves the bits selected by the mask's
32-bit complement equal to those of r and sets the masked bits to exactly v
shifted to the mask's lowest set bit s.  The v < 2^w hypothesis is
necessary: the code does not re-mask the shifted value, so an oversized
value spills outside the mask (see the counterexample). -/
theorem write_reg_field_masked (r v s w : Nat) (hw : 0 < w) (hsw : s + w ≤ 32)
    (hr : r < 2 ^ 32) (hv : v < 2 ^ w) :
    msm_dbm_write_reg_field r ((2 ^ w - 1) <<< s) v &&& ((2 ^ w - 1) <<< s) =
        v <<< s ∧
    msm_dbm_write_reg_field r ((2 ^ w - 1) <<< s) v &&&
        (MASK32 ^^^ ((2 ^ w - 1) <<< s)) =
      r &&& (MASK32 ^^^ ((2 ^ w - 1) <<< s)) ∧
    find_first_bit ((2 ^ w - 1) <<< s) = s := by
  rw [msm_dbm_write_reg_field_eq hw hsw hv]
  refine ⟨?_, lor_shift_and_compl hsw hv, find_first_bit_contiguous s w hw (by omega)⟩
  apply Nat.eq_of_testBit_eq
  intro i
  simp only [Nat.testBit_and, Nat.testBit_or]
  by_cases hm : ((2 ^ w - 1) <<< s).testBit i = true
  · have hi32 : i < 32 := by
      rw [testBit_contiguous_mask] at hm
      simp at hm
      omega
    have hc : (MASK32 ^^^ ((2 ^ w - 1) <<< s)).testBit i = false := by
      rw [Nat.testBit_xor, testBit_MASK32, hm]
      simp [hi32]
    rw [hm, hc]
    simp
  · have hmf : ((2 ^ w - 1) <<< s).testBit i = false := by simpa using hm
    have hvb : (v <<< s).testBit i = false := by
      apply testBit_shiftLeft_out hv
      rw [testBit_contiguous_mask] at hmf
      intro hand
      simp [hand.1, hand.2] at hmf
    rw [hmf, hvb]
    simp

/-- C5 witness: the masked-write contract at r = 0x12345678, mask
0xFF0 (w = 8, s = 4), v = 0xAB. -/
theorem write_reg_field_masked_witness :
    (0 : Nat) < 8 ∧ (4 : Nat) + 8 ≤ 32 ∧ (0x12345678 : Nat) < 2 ^ 32 ∧
    (0xAB : Nat) < 2 ^ 8 ∧
    (msm_dbm_write_reg_field 0x12345678 ((2 ^ 8 - 1) <<< 4) 0xAB &&&
          ((2 ^ 8 - 1) <<< 4) = 0xAB <<< 4 ∧
      msm_dbm_write_reg_field 0x12345678 ((2 ^ 8 - 1) <<< 4) 0xAB &&&
          (MASK32 ^^^ ((2 ^ 8 - 1) <<< 4)) =
        0x12345678 &&& (MASK32 ^^^ ((2 ^ 8 - 1) <<< 4)) ∧
      find_first_bit ((2 ^ 8 - 1) <<< 4) = 4) :=
  ⟨by norm_num, by norm_num, by norm_num, by norm_num,
    write_reg_field_masked 0x12345678 0xAB 4 8 (by norm_num) (by norm_num)
      (by norm_num) (by norm_num)⟩

/-- C5 counterexample: with contiguous width-1 mask 1 and value 2 on
register content 0, the write changes a bit outside the mask (bit 1), so
the claim as stated for every value V is false. -/
theorem write_reg_field_masked_cex :
    msm_dbm_write_reg_field 0 1 2 &&& (MASK32 ^^^ 1) ≠ 0 &&& (MASK32 ^^^ 1) := by
  decide

/-- C6: two successive masked field writes with the same contiguous mask
equal a single write of the second value, provided the first value fits the
field (v1 < 2^w); the second value is unconstrained.  The restriction on v1
is necessary: an oversized first value leaves spilled bits that the second
write's clear step (which clears only the mask) cannot remove. -/
theorem write_reg_field_overwrite (r v1 v2 s w : Nat) (hw : 0 < w)
    (hsw : s + w ≤ 32) (hv1 : v1 < 2 ^ w) :
    msm_dbm_write_reg_field (msm_dbm_write_reg_field r ((2 ^ w - 1) <<< s) v1)
        ((2 ^ w - 1) <<< s) v2 =
      msm_dbm_write_reg_field r ((2 ^ w - 1) <<< s) v2 := by
  rw [msm_dbm_write_reg_field_eq hw hsw hv1]
  unfold msm_dbm_write_reg_field
  rw [lor_shift_and_compl hsw hv1]

/-- C6 witness: the overwrite law at r = 0x0F0F0F0F, mask 0xFF0,
v1 = 0x12, v2 = 0x34. -/
theorem write_reg_field_overwrite_witness :
    msm_dbm_write_reg_field
        (msm_dbm_write_reg_field 0x0F0F0F0F ((2 ^ 8 - 1) <<< 4) 0x12)
        ((2 ^ 8 - 1) <<< 4) 0x34 =
      msm_dbm_write_reg_field 0x0F0F0F0F ((2 ^ 8 - 1) <<< 4) 0x34 :=
  write_reg_field_overwrite 0x0F0F0F0F 0x12 0x34 4 8 (by norm_num) (by norm_num)
    (by norm_num)

/-- C6 counterexample: with mask 1, first value 2 (oversized) and second
value 0, the double write differs from the single write of the second
value, so the claim quantified over all values V1 is false. -/
theorem write_reg_field_overwrite_cex :
    msm_dbm_write_reg_field (msm_dbm_write_reg_field 0 1 2) 1 0 ≠
      msm_dbm_write_reg_field 0 1 0 := by
  decide

/-- C1: when the slot lookup resolves to an index 0-6, ep_config with the
producer flag clear (consumer direction) succeeds and returns that index;
when it resolves to slot 7, ep_config with the producer flag SET fails with
-ENODEV, and with the producer flag clear it succeeds and returns 7.  This
is the reverse of the claim's direction labels: the code's line 199 rejects
producer = true on slot 7. -/
theorem ep_config_slot7_direction (s : DbmState) (u bp : Nat) (dwb im ioc : Bool) :
    (∀ j : Nat, j < 7 → msm_dbm_find_matching_dbm_ep s u = Int.ofNat j →
      (ep_config s u bp false dwb im ioc).1 = Int.ofNat j) ∧
    (msm_dbm_find_matching_dbm_ep s u = 7 →
      (ep_config s u bp true dwb im ioc).1 = -ENODEV ∧
      (ep_config s u bp false dwb im ioc).1 = 7) := by
  constructor
  · intro j hj hfind
    unfold ep_config
    rw [hfind]
    rw [if_neg (by simp only [Int.ofNat_eq_natCast]; omega : ¬(Int.ofNat j : Int) < 0)]
    rw [if_neg (by simp : ¬((Int.ofNat j : Int) = 7 ∧ false = true))]
  · intro hfind
    constructor
    · unfold ep_config
      rw [hfind]
      rw [if_neg (by norm_num : ¬(7 : Int) < 0)]
      rw [if_pos (⟨rfl, rfl⟩ : (7 : Int) = 7 ∧ true = true)]
    · unfold ep_config
      rw [hfind]
      rw [if_neg (by norm_num : ¬(7 : Int) < 0)]
      rw [if_neg (by simp : ¬((7 : Int) = 7 ∧ false = true))]

/-- C1 witness: concrete states exercising both parts of the direction
theorem: slot 2 accepts the consumer direction; slot 7 rejects the producer
flag and accepts the consumer direction. -/
theorem ep_config_slot7_direction_witness :
    (ep_config exStateA 3 0 false false false false).1 = Int.ofNat 2 ∧
    (ep_config exState7 5 0 true false false false).1 = -ENODEV ∧
    (ep_config exState7 5 0 false false false false).1 = 7 :=
  ⟨(ep_config_slot7_direction exStateA 3 0 false false false).1 2 (by norm_num)
      (by decide),
    ((ep_config_slot7_direction exState7 5 0 false false false).2 (by decide)).1,
    ((ep_config_slot7_direction exState7 5 0 false false false).2 (by decide)).2⟩

/-- C1 counterexample: in the reachable state with slot 7 bound to logical
endpoint 5, ep_config with the producer flag clear (consumer) SUCCEEDS
returning 7, and with the producer flag set it FAILS with -ENODEV — the
opposite of the claim, which says consumer always fails on slot 7 and
producer always succeeds. -/
theorem ep_config_slot7_direction_cex :
    msm_dbm_find_matching_dbm_ep exState7 5 = 7 ∧
    (ep_config exState7 5 0 false false false false).1 = 7 ∧
    (ep_config exState7 5 0 true false false false).1 = -ENODEV := by
  decide

/-- ep_unconfig on a resolvable endpoint zeroes exactly the resolved slot's
mapping entry. -/
theorem ep_unconfig_mapping (s : DbmState) (n : Nat) {j : Nat}
    (hfind : msm_dbm_find_matching_dbm_ep s n = Int.ofNat j) :
    (applyEvents s (ep_unconfig s n).2).ep_num_mapping =
      fun l => if l = j then 0 else s.ep_num_mapping l := by
  have htr : (ep_unconfig s n).2 =
      [Event.mapStore j 0,
        Event.regWrite (DBM_EP_CFG j) (s.regs (DBM_EP_CFG j) &&& (MASK32 ^^^ 0x1))] ++
      ((dbm_ep_soft_reset s j true).2 ++ (dbm_ep_soft_reset s j false).2) := by
    unfold ep_unconfig
    rw [hfind]
    rw [if_neg (by simp only [Int.ofNat_eq_natCast]; omega : ¬(Int.ofNat j : Int) < 0)]
    simp [List.append_assoc]
  rw [htr, applyEvents, List.foldl_append, ← applyEvents, ← applyEvents]
  rw [applyEvents_mapping_of_no_store _ _ (by
    intro e he
    rcases List.mem_append.mp he with he | he
    · exact dbm_ep_soft_reset_no_mapStore s j true e he
    · exact dbm_ep_soft_reset_no_mapStore s j false e he)]
  funext l
  simp [applyEvents, applyEvent]

/-- C2: after a successful ep_unconfig of a nonzero logical endpoint n that
is mapped only at slot j, a subsequent ep_config of n FAILS with -ENODEV
and issues no side effects: the unconfigure/configure round trip does not
restore the configured state, because ep_unconfig clears the mapping entry
that ep_config needs in order to resolve the slot. -/
theorem ep_unconfig_then_ep_config (s : DbmState) (n j bp : Nat)
    (p dwb im ioc : Bool) (hn : n ≠ 0)
    (hfind : msm_dbm_find_matching_dbm_ep s n = Int.ofNat j)
    (huniq : ∀ l, l < s.dbm_num_eps → s.ep_num_mapping l = n → l = j) :
    ep_config (applyEvents s (ep_unconfig s n).2) n bp p dwb im ioc =
      (-ENODEV, []) := by
  have hmap := ep_unconfig_mapping s n hfind
  have hnum := applyEvents_num_eps (ep_unconfig s n).2 s
  have hfind2 : msm_dbm_find_matching_dbm_ep (applyEvents s (ep_unconfig s n).2) n
      = -ENODEV := by
    unfold msm_dbm_find_matching_dbm_ep
    rw [hnum, hmap]
    apply findMatchingAux_none
    intro l _ hl2
    by_cases hlj : l = j
    · rw [if_pos hlj]
      omega
    · rw [if_neg hlj]
      intro hc
      exact hlj (huniq l (by omega) hc)
  unfold ep_config
  rw [hfind2]
  rw [if_pos (by decide : (-ENODEV : Int) < 0)]

/-- C2 witness: the failed round trip at the concrete configured state with
slot 2 bound to logical endpoint 3. -/
theorem ep_unconfig_then_ep_config_witness :
    ep_config (applyEvents exStateA (ep_unconfig exStateA 3).2) 3 0 false false
        false false = (-ENODEV, []) :=
  ep_unconfig_then_ep_config exStateA 3 2 0 false false false false
    (by norm_num) (by decide) (by decide)

/-- C2 counterexample: unconfiguring endpoint 3 from the configured state
(slot 2 bound to 3) and then configuring it again returns -ENODEV, leaves
the mapping entry at 0 (not restored to 3) and leaves the slot's enable bit
clear — the claimed round trip back to an equivalent configured state does
not happen. -/
theorem ep_unconfig_then_ep_config_cex :
    (ep_config exAfterUnconfig 3 0 false false false false).1 = -ENODEV ∧
    (applyEvents exAfterUnconfig
        (ep_config exAfterUnconfig 3 0 false false false false).2).ep_num_mapping 2
      = 0 ∧
    (applyEvents exAfterUnconfig
        (ep_config exAfterUnconfig 3 0 false false false false).2).regs
        (DBM_EP_CFG 2) &&& DBM_EN_EP = 0 := by
  decide

/-- Renaming a state's fields preserves the uniqueness invariant. -/
theorem uniqueMapping_of_eq (s s' : DbmState)
    (h1 : s'.dbm_num_eps = s.dbm_num_eps)
    (h2 : s'.ep_num_mapping = s.ep_num_mapping)
    (h : uniqueMapping s) : uniqueMapping s' := by
  intro i hi j hj hnz he
  rw [h1] at hi hj
  rw [h2] at hnz he
  exact h i hi j hj hnz he

/-- event_buffer_config issues no mapping-table store. -/
theorem event_buffer_config_no_mapStore (lo hi : Nat) (sz : Int) :
    ∀ e ∈ (event_buffer_config lo hi sz).2, e.isMapStore = false := by
  intro e he
  unfold event_buffer_config at he
  by_cases hs : sz < 0
  · rw [if_pos hs] at he
    simp at he
  · rw [if_neg hs] at he
    simp only [List.mem_cons, List.not_mem_nil, or_false] at he
    rcases he with he | he | he <;> subst he <;> rfl

/-- soft_reset issues no mapping-table store. -/
theorem soft_reset_no_mapStore (b : Bool) :
    ∀ e ∈ (soft_reset b).2, e.isMapStore = false := by
  intro e he
  simp only [soft_reset, List.mem_cons, List.not_mem_nil, or_false] at he
  subst he
  rfl

/-- set_speed issues no mapping-table store. -/
theorem set_speed_no_mapStore (b : Bool) :
    ∀ e ∈ set_speed b, e.isMapStore = false := by
  intro e he
  simp only [set_speed, List.mem_cons, List.not_mem_nil, or_false] at he
  subst he
  rfl

/-- enable issues no mapping-table store. -/
theorem enable_no_mapStore : ∀ e ∈ enable, e.isMapStore = false := by
  intro e he
  simp only [enable, List.mem_cons, List.not_mem_nil, or_false] at he
  rcases he with he | he <;> subst he <;> rfl

/-- data_fifo_config overwrites exactly the caller-chosen slot of the
mapping table with the (truncated) endpoint number. -/
theorem data_fifo_config_mapping (s : DbmState) (dep addr sz idx : Nat) :
    (applyEvents s (data_fifo_config dep addr sz idx).2).ep_num_mapping =
      fun l => if l = idx then dep % 2 ^ 8 else s.ep_num_mapping l := by
  funext l
  simp [data_fifo_config, applyEvents, applyEvent]

/-- C3: from any state satisfying the at-most-one-slot invariant, every
entry point preserves it, with one caveat forced by the code:
data_fifo_config preserves it only under the caller obligation that the
endpoint number being bound is not already recorded in a different slot.
The unconditional claim is false (see the counterexample): data_fifo_config
performs no duplicate check. -/
theorem operations_preserve_unique_mapping (s : DbmState) (h : uniqueMapping s) :
    (∀ n, uniqueMapping (applyEvents s (ep_unconfig s n).2)) ∧
    (∀ u bp p dwb im ioc,
      uniqueMapping (applyEvents s (ep_config s u bp p dwb im ioc).2)) ∧
    (∀ lo hi sz, uniqueMapping (applyEvents s (event_buffer_config lo hi sz).2)) ∧
    (∀ b, uniqueMapping (applyEvents s (soft_reset b).2)) ∧
    (∀ d b, uniqueMapping (applyEvents s (dbm_ep_soft_reset s d b).2)) ∧
    (∀ b, uniqueMapping (applyEvents s (set_speed b))) ∧
    uniqueMapping (applyEvents s enable) ∧
    (∀ dep addr sz idx, dep < 2 ^ 8 →
      (∀ l, l < s.dbm_num_eps → s.ep_num_mapping l = dep → l = idx) →
      uniqueMapping (applyEvents s (data_fifo_config dep addr sz idx).2)) := by
  refine ⟨?_, ?_, ?_, ?_, ?_, ?_, ?_, ?_⟩
  · intro n
    cases hd : msm_dbm_find_matching_dbm_ep s n with
    | ofNat j =>
        have hmap := ep_unconfig_mapping s n hd
        intro i hi k hk hnz he
        rw [applyEvents_num_eps] at hi hk
        simp only [hmap] at hnz he
        by_cases hij : i = j
        · rw [if_pos hij] at hnz
          exact absurd rfl hnz
        · rw [if_neg hij] at hnz he
          by_cases hkj : k = j
          · rw [if_pos hkj] at he
            exact absurd he hnz
          · rw [if_neg hkj] at he
            exact h i hi k hk hnz he
    | negSucc j =>
        have htr : (ep_unconfig s n).2 = [] := by
          unfold ep_unconfig
          rw [hd]
          rw [if_pos (Int.negSucc_lt_zero j)]
        rw [htr]
        exact h
  · intro u bp p dwb im ioc
    exact uniqueMapping_of_eq s _ (applyEvents_num_eps _ _)
      (applyEvents_mapping_of_no_store _ _ (ep_config_no_mapStore s u bp p dwb im ioc)) h
  · intro lo hi sz
    exact uniqueMapping_of_eq s _ (applyEvents_num_eps _ _)
      (applyEvents_mapping_of_no_store _ _ (event_buffer_config_no_mapStore lo hi sz)) h
  · intro b
    exact uniqueMapping_of_eq s _ (applyEvents_num_eps _ _)
      (applyEvents_mapping_of_no_store _ _ (soft_reset_no_mapStore b)) h
  · intro d b
    exact uniqueMapping_of_eq s _ (applyEvents_num_eps _ _)
      (applyEvents_mapping_of_no_store _ _ (dbm_ep_soft_reset_no_mapStore s d b)) h
  · intro b
    exact uniqueMapping_of_eq s _ (applyEvents_num_eps _ _)
      (applyEvents_mapping_of_no_store _ _ (set_speed_no_mapStore b)) h
  · exact uniqueMapping_of_eq s _ (applyEvents_num_eps _ _)
      (applyEvents_mapping_of_no_store _ _ enable_no_mapStore) h
  · intro dep addr sz idx hdep huniq
    have hmap := data_fifo_config_mapping s dep addr sz idx
    have hdep' : dep % 2 ^ 8 = dep := Nat.mod_eq_of_lt hdep
    intro i hi k hk hnz he
    rw [applyEvents_num_eps] at hi hk
    simp only [hmap, hdep'] at hnz he
    by_cases hik : i = idx
    · by_cases hkk : k = idx
      · omega
      · rw [if_pos hik, if_neg hkk] at he
        exact absurd (huniq k hk he.symm) hkk
    · rw [if_neg hik] at hnz he
      by_cases hkk : k = idx
      · rw [if_pos hkk] at he
        exact absurd (huniq i hi he) hik
      · rw [if_neg hkk] at he
        exact h i hi k hk hnz he

/-- C3 witness: preservation at concrete calls from the freshly probed
state: an unconfigure of endpoint 1 and a first bind of endpoint 3 to
slot 2. -/
theorem operations_preserve_unique_mapping_witness :
    uniqueMapping (applyEvents initDbmState (ep_unconfig initDbmState 1).2) ∧
    uniqueMapping (applyEvents initDbmState (data_fifo_config 3 4096 4096 2).2) :=
  ⟨(operations_preserve_unique_mapping initDbmState
        (by intro i _ j _ hnz _; exact absurd rfl hnz)).1 1,
    (operations_preserve_unique_mapping initDbmState
        (by intro i _ j _ hnz _; exact absurd rfl hnz)).2.2.2.2.2.2.2
      3 4096 4096 2 (by decide) (by decide)⟩

/-- C3 counterexample: from the freshly probed state, two data_fifo_config
calls binding the same endpoint number 3 to slots 2 and 5 yield a
reachable state in which 3 occupies two mapping slots: the claimed
invariant does not hold in every reachable state, because data_fifo_config
(the only operation storing a nonzero entry) performs no duplicate check. -/
theorem unique_mapping_violated_cex :
    exStateDup.ep_num_mapping 2 = 3 ∧ exStateDup.ep_num_mapping 5 = 3 ∧
    ¬ uniqueMapping exStateDup := by
  refine ⟨by decide, by decide, ?_⟩
  intro hu
  have h25 := hu 2 (by decide) 5 (by decide) (by decide) (by decide)
  exact absurd h25 (by decide)

/-- C4: data_fifo_config returns 0 and records the logical endpoint number
in the mapping table FIRST (the mapping store is the head of its side-effect
trace), and only afterwards writes the low/high address halves and the
masked size field (all register writes sit in the tail, which contains no
mapping store).  The claim's order — registers first, mapping store after —
is the reverse of the code (line 317 precedes lines 319-325). -/
theorem data_fifo_config_map_first (dep addr sz idx : Nat) :
    (data_fifo_config dep addr sz idx).1 = 0 ∧
    (data_fifo_config dep addr sz idx).2.head? = some (Event.mapStore idx dep) ∧
    Event.regWrite (DBM_DATA_FIFO_LSB idx) (addr &&& MASK32) ∈
      (data_fifo_config dep addr sz idx).2.tail ∧
    Event.regWrite (DBM_DATA_FIFO_MSB idx) ((addr >>> 32) &&& MASK32) ∈
      (data_fifo_config dep addr sz idx).2.tail ∧
    Event.fieldWrite (DBM_DATA_FIFO_SIZE idx) DBM_DATA_FIFO_SIZE_MASK sz ∈
      (data_fifo_config dep addr sz idx).2.tail ∧
    ((data_fifo_config dep addr sz idx).2.tail.all fun e => !e.isMapStore) = true := by
  refine ⟨rfl, rfl, ?_, ?_, ?_, rfl⟩ <;> simp [data_fifo_config]

/-- C4 counterexample: at the spec's concrete input (endpoint 3, slot 2),
the first emitted side effect is the mapping store and the register writes
follow it; the claimed order (registers first, then the mapping store)
fails. -/
theorem data_fifo_config_map_first_cex :
    (data_fifo_config 3 4096 4096 2).2.head? = some (Event.mapStore 2 3) ∧
    (data_fifo_config 3 4096 4096 2).2.getLast? =
      some (Event.fieldWrite (DBM_DATA_FIFO_SIZE 2) DBM_DATA_FIFO_SIZE_MASK 4096) := by
  decide

/-- C7: in every successful ep_config call, the write that sets the slot's
enable bit (mask DBM_EN_EP) is the last side effect of the call, and the
configuration-flags byte write and the endpoint-number field write both
occur strictly before it; no enable-bit write occurs earlier in the call. -/
theorem ep_config_enable_bit_last (s : DbmState) (u bp : Nat) (p dwb im ioc : Bool)
    (h : 0 ≤ (ep_config s u bp p dwb im ioc).1) :
    (ep_config s u bp p dwb im ioc).2.getLast? =
      some (Event.fieldWrite (DBM_EP_CFG (ep_config s u bp p dwb im ioc).1.toNat)
        DBM_EN_EP 1) ∧
    Event.fieldWrite (DBM_EP_CFG (ep_config s u bp p dwb im ioc).1.toNat)
        (DBM_PRODUCER ||| DBM_DISABLE_WB ||| DBM_INT_RAM_ACC)
        (((if p then DBM_PRODUCER else 0) ||| (if dwb then DBM_DISABLE_WB else 0) |||
            (if false then DBM_INT_RAM_ACC else 0)) >>> 8) ∈
      (ep_config s u bp p dwb im ioc).2.dropLast ∧
    Event.fieldWrite (DBM_EP_CFG (ep_config s u bp p dwb im ioc).1.toNat)
        USB3_EPNUM u ∈
      (ep_config s u bp p dwb im ioc).2.dropLast ∧
    Event.fieldWrite (DBM_EP_CFG (ep_config s u bp p dwb im ioc).1.toNat)
        DBM_EN_EP 1 ∉
      (ep_config s u bp p dwb im ioc).2.dropLast := by
  cases hd : msm_dbm_find_matching_dbm_ep s u with
  | negSucc j =>
      exfalso
      unfold ep_config at h
      rw [hd, if_pos (Int.negSucc_lt_zero j)] at h
      exact absurd h (by decide)
  | ofNat j =>
      by_cases h7 : (Int.ofNat j : Int) = 7 ∧ p = true
      · exfalso
        unfold ep_config at h
        rw [hd, if_neg (by simp only [Int.ofNat_eq_natCast]; omega :
            ¬(Int.ofNat j : Int) < 0), if_pos h7] at h
        exact absurd h (by decide)
      · obtain ⟨hjlt, _⟩ := find_matching_bounds hd
        have hrst : (dbm_ep_soft_reset s j false).2 =
            [Event.fieldWrite DBM_SOFT_RESET (DBM_SFT_RST_EPS_MASK &&& (1 <<< j)) 0] := by
          unfold dbm_ep_soft_reset
          rw [if_neg (by omega : ¬s.dbm_num_eps ≤ j)]
          rfl
        have htr : ep_config s u bp p dwb im ioc =
            (Int.ofNat j,
              [Event.fieldWrite DBM_SOFT_RESET (DBM_SFT_RST_EPS_MASK &&& (1 <<< j)) 0,
               Event.fieldWrite DBM_DBG_CNFG (DBM_ENABLE_IOC_MASK &&& (1 <<< j))
                 (if ioc then 1 else 0),
               Event.fieldWrite (DBM_EP_CFG j)
                 (DBM_PRODUCER ||| DBM_DISABLE_WB ||| DBM_INT_RAM_ACC)
                 (((if p then DBM_PRODUCER else 0) |||
                     (if dwb then DBM_DISABLE_WB else 0) |||
                     (if false then DBM_INT_RAM_ACC else 0)) >>> 8),
               Event.fieldWrite (DBM_EP_CFG j) USB3_EPNUM u,
               Event.fieldWrite (DBM_EP_CFG j) DBM_EN_EP 1]) := by
          unfold ep_config
          rw [hd, if_neg (by simp only [Int.ofNat_eq_natCast]; omega :
            ¬(Int.ofNat j : Int) < 0), if_neg h7]
          simp only [int_ofNat_toNat, hrst, List.singleton_append]
        rw [htr]
        simp only [int_ofNat_toNat]
        refine ⟨rfl, by simp, by simp, ?_⟩
        intro hmem
        simp only [List.dropLast, List.mem_cons, List.not_mem_nil, or_false] at hmem
        rcases hmem with hm | hm | hm | hm
        · rw [Event.fieldWrite.injEq] at hm
          exact absurd hm.2.2 (by decide)
        · rw [Event.fieldWrite.injEq] at hm
          obtain ⟨h1, h2, _⟩ := hm
          have hj : j = 130 := by
            simp only [DBM_EP_CFG, DBM_DBG_CNFG] at h1
            omega
          subst hj
          exact absurd h2 (by decide)
        · rw [Event.fieldWrite.injEq] at hm
          exact absurd hm.2.1 (by decide)
        · rw [Event.fieldWrite.injEq] at hm
          exact absurd hm.2.1 (by decide)

/-- C7 witness: the enable-last ordering at the concrete configured state
with slot 2 bound to endpoint 3. -/
theorem ep_config_enable_bit_last_witness :
    (ep_config exStateA 3 0 true false false false).2.getLast? =
      some (Event.fieldWrite
        (DBM_EP_CFG (ep_config exStateA 3 0 true false false false).1.toNat)
        DBM_EN_EP 1) ∧
    Event.fieldWrite (DBM_EP_CFG (ep_config exStateA 3 0 true false false false).1.toNat)
        (DBM_PRODUCER ||| DBM_DISABLE_WB ||| DBM_INT_RAM_ACC)
        (((if true then DBM_PRODUCER else 0) ||| (if false then DBM_DISABLE_WB else 0) |||
            (if false then DBM_INT_RAM_ACC else 0)) >>> 8) ∈
      (ep_config exStateA 3 0 true false false false).2.dropLast ∧
    Event.fieldWrite (DBM_EP_CFG (ep_config exStateA 3 0 true false false false).1.toNat)
        USB3_EPNUM 3 ∈
      (ep_config exStateA 3 0 true false false false).2.dropLast ∧
    Event.fieldWrite (DBM_EP_CFG (ep_config exStateA 3 0 true false false false).1.toNat)
        DBM_EN_EP 1 ∉
      (ep_config exStateA 3 0 true false false false).2.dropLast :=
  ep_config_enable_bit_last exStateA 3 0 true false false false (by decide)

/-- C8: every entry point either fully completes its register writes or
fails before issuing any: event_buffer_config with a negative size returns
-EINVAL with an empty trace, and whenever ep_config, ep_unconfig,
dbm_ep_soft_reset or event_buffer_config returns a negative status its
side-effect trace is empty. -/
theorem entry_points_fail_without_writes :
    (∀ lo hi : Nat, ∀ sz : Int, sz < 0 →
      event_buffer_config lo hi sz = (-EINVAL, [])) ∧
    (∀ s : DbmState, ∀ u bp : Nat, ∀ p dwb im ioc : Bool,
      (ep_config s u bp p dwb im ioc).1 < 0 → (ep_config s u bp p dwb im ioc).2 = []) ∧
    (∀ s : DbmState, ∀ n : Nat,
      (ep_unconfig s n).1 < 0 → (ep_unconfig s n).2 = []) ∧
    (∀ s : DbmState, ∀ d : Nat, ∀ b : Bool,
      (dbm_ep_soft_reset s d b).1 < 0 → (dbm_ep_soft_reset s d b).2 = []) ∧
    (∀ lo hi : Nat, ∀ sz : Int,
      (event_buffer_config lo hi sz).1 < 0 → (event_buffer_config lo hi sz).2 = []) := by
  refine ⟨?_, ?_, ?_, ?_, ?_⟩
  · intro lo hi sz hs
    unfold event_buffer_config
    rw [if_pos hs]
  · intro s u bp p dwb im ioc hlt
    cases hd : msm_dbm_find_matching_dbm_ep s u with
    | negSucc j =>
        unfold ep_config
        rw [hd, if_pos (Int.negSucc_lt_zero j)]
    | ofNat j =>
        by_cases h7 : (Int.ofNat j : Int) = 7 ∧ p = true
        · unfold ep_config
          rw [hd, if_neg (by simp only [Int.ofNat_eq_natCast]; omega :
            ¬(Int.ofNat j : Int) < 0), if_pos h7]
        · exfalso
          have h1 : (ep_config s u bp p dwb im ioc).1 = Int.ofNat j := by
            unfold ep_config
            rw [hd, if_neg (by simp only [Int.ofNat_eq_natCast]; omega :
              ¬(Int.ofNat j : Int) < 0), if_neg h7]
          rw [h1] at hlt
          simp only [Int.ofNat_eq_natCast] at hlt
          omega
  · intro s n hlt
    cases hd : msm_dbm_find_matching_dbm_ep s n with
    | negSucc j =>
        unfold ep_unconfig
        rw [hd, if_pos (Int.negSucc_lt_zero j)]
    | ofNat j =>
        exfalso
        unfold ep_unconfig at hlt
        rw [hd, if_neg (by simp only [Int.ofNat_eq_natCast]; omega :
          ¬(Int.ofNat j : Int) < 0)] at hlt
        simp at hlt
  · intro s d b hlt
    unfold dbm_ep_soft_reset at hlt ⊢
    by_cases hge : s.dbm_num_eps ≤ d
    · rw [if_pos hge]
    · rw [if_neg hge] at hlt
      cases b <;> simp at hlt
  · intro lo hi sz hlt
    unfold event_buffer_config at hlt ⊢
    by_cases hs : sz < 0
    · rw [if_pos hs]
    · rw [if_neg hs] at hlt
      simp at hlt

/-- C8 witness: the fail-without-writes contract at concrete failing
inputs: a negative event-buffer size, an unresolvable endpoint for
ep_config and ep_unconfig on the freshly probed state, and an out-of-range
slot for dbm_ep_soft_reset. -/
theorem entry_points_fail_without_writes_witness :
    event_buffer_config 0 0 (-1) = (-EINVAL, []) ∧
    (ep_config initDbmState 5 0 false false false false).2 = [] ∧
    (ep_unconfig initDbmState 5).2 = [] ∧
    (dbm_ep_soft_reset initDbmState 9 true).2 = [] :=
  ⟨entry_points_fail_without_writes.1 0 0 (-1) (by decide),
    entry_points_fail_without_writes.2.1 initDbmState 5 0 false false false false
      (by decide),
    entry_points_fail_without_writes.2.2.1 initDbmState 5 (by decide),
    entry_points_fail_without_writes.2.2.2.1 initDbmState 9 true (by decide)⟩

/-- C9: because 0 marks an unassigned mapping entry, the slot lookup for
logical endpoint number 0 returns the first unassigned slot (no not-found
error) whenever one exists; consequently ep_unconfig with usb_ep = 0
succeeds there, and on the freshly probed device endpoint number 0
resolves to slot 0, where ep_config also succeeds returning 0. -/
theorem find_zero_first_unassigned (s : DbmState) (i : Nat)
    (hi : i < s.dbm_num_eps) (hz : s.ep_num_mapping i = 0)
    (hfirst : ∀ l, l < i → s.ep_num_mapping l ≠ 0) :
    msm_dbm_find_matching_dbm_ep s 0 = Int.ofNat i ∧
    (ep_unconfig s 0).1 = 0 ∧
    msm_dbm_find_matching_dbm_ep initDbmState 0 = Int.ofNat 0 ∧
    (∀ bp : Nat, ∀ p dwb im ioc : Bool,
      (ep_config initDbmState 0 bp p dwb im ioc).1 = 0) := by
  have h1 : msm_dbm_find_matching_dbm_ep s 0 = Int.ofNat i := by
    unfold msm_dbm_find_matching_dbm_ep
    exact findMatchingAux_first s.dbm_num_eps 0 i (Nat.zero_le i) (by omega) hz
      (fun l _ hl2 => hfirst l hl2)
  refine ⟨h1, ?_, by decide, ?_⟩
  · unfold ep_unconfig
    rw [h1, if_neg (by simp only [Int.ofNat_eq_natCast]; omega :
      ¬(Int.ofNat i : Int) < 0)]
  · intro bp p dwb im ioc
    have h0 : msm_dbm_find_matching_dbm_ep initDbmState 0 = Int.ofNat 0 := by decide
    unfold ep_config
    rw [h0, if_neg (by decide : ¬(Int.ofNat 0 : Int) < 0),
      if_neg (fun hc => absurd hc.1 (by decide))]
    rfl

/-- C9 witness: with slot 0 occupied by endpoint 3, the lookup for endpoint
number 0 resolves to slot 1 (the first unassigned slot), ep_unconfig of
endpoint 0 succeeds, and on the fresh state ep_config of endpoint 0
succeeds returning slot 0. -/
theorem find_zero_first_unassigned_witness :
    msm_dbm_find_matching_dbm_ep exStateB 0 = Int.ofNat 1 ∧
    (ep_unconfig exStateB 0).1 = 0 ∧
    (ep_config initDbmState 0 0 true false false false).1 = 0 :=
  ⟨(find_zero_first_unassigned exStateB 1 (by decide) (by decide) (by decide)).1,
    (find_zero_first_unassigned exStateB 1 (by decide) (by decide) (by decide)).2.1,
    (find_zero_first_unassigned exStateB 1 (by decide) (by decide) (by decide)).2.2.2
      0 true false false false⟩

/-- C10: data_fifo_config validates nothing and cannot fail: for every
input it returns 0 and stores the endpoint number at the raw caller-chosen
index dst_pipe_idx, and that store is within the 8-entry mapping table
exactly when dst_pipe_idx < DBM_1_5_NUM_EP — for any index of 8 or more
the store is out of the table's range. -/
theorem data_fifo_config_unchecked_index (dep addr sz idx : Nat) :
    (data_fifo_config dep addr sz idx).1 = 0 ∧
    Event.mapStore idx dep ∈ (data_fifo_config dep addr sz idx).2 ∧
    (mapStoreInBounds (Event.mapStore idx dep) = true ↔ idx < DBM_1_5_NUM_EP) := by
  refine ⟨rfl, by simp [data_fifo_config], ?_⟩
  simp [mapStoreInBounds]

